import Mathlib

/-!
Formalisation of the local photo store of a browser photo-gallery application
(`src/hooks/useAlbums.tsx`, `src/hooks/useAlbumPhotos.tsx`): the IndexedDB-backed
photo/thumbnail store, the pagination loader, the upload pipeline and the
localStorage album index.  Object stores are modelled as lists in record key
order (the order `IDBObjectStore.getAll` returns), dates as integer timestamps
(the value of `new Date(s).getTime()` on the stored ISO string), and the stable
JavaScript `Array.prototype.sort` as a stable insertion sort.
-/

namespace PhotoGallery

/-- The `Photo` record of `useAlbums.tsx` (`usePhotos` section).  `id` is the
numeric store key (`Date.now() + Math.random()`, modelled as `Nat`), `date` the
sort timestamp. -/
structure Photo where
  id : Nat
  date : Int
  src : String
  alt : String
  width : Nat
  height : Nat
  isUploaded : Bool
  fileSize : Nat
  thumbnail : Option String
  backendId : Option String
deriving DecidableEq

/-- `const PAGE_SIZE = 50`. -/
def PAGE_SIZE : Nat := 50

/-- A concrete photo used to instantiate theorems on sample stores. -/
def testPhoto (i : Nat) (d : Int) : Photo :=
  ⟨i, d, "", "", 0, 0, false, 0, none, none⟩

/-- One insertion step of the stable descending sort: `p` walks past the
elements whose `date` is strictly greater and lands before the first element
whose `date` is at most `p.date`.  Since `p` originally precedes every element
of the tail it is inserted into, ties keep their original relative order —
matching `Array.prototype.sort` with comparator
`(a, b) => new Date(b.date).getTime() - new Date(a.date).getTime()`, a stable
descending sort per ES2019 (see `sortByDateDesc_sorted` and
`sortByDateDesc_stable` below). -/
def insertByDateDesc (p : Photo) : List Photo → List Photo
  | [] => [p]
  | q :: qs => if p.date < q.date then q :: insertByDateDesc p qs else p :: q :: qs

/-- `allPhotos.sort((a, b) => new Date(b.date).getTime() - new Date(a.date).getTime())`:
stable sort by `date` descending. -/
def sortByDateDesc : List Photo → List Photo
  | [] => []
  | p :: ps => insertByDateDesc p (sortByDateDesc ps)

/-- `loadPhotosFromDB`: `store.getAll()` — the whole photo collection in store
order. -/
def loadPhotosFromDB (db : List Photo) : List Photo := db

/-- `loadPhotosPaginated(offset, limit)` (healthy-store path): `getAll()`, sort
by `date` descending, then `sorted.slice(offset, offset + limit)`. -/
def loadPhotosPaginated (db : List Photo) (offset limit : Nat) : List Photo :=
  ((sortByDateDesc db).drop offset).take limit

theorem insertByDateDesc_length (p : Photo) (l : List Photo) :
    (insertByDateDesc p l).length = l.length + 1 := by
  induction l with
  | nil => rfl
  | cons q qs ih =>
    simp only [insertByDateDesc]
    split
    · simp [ih]
    · simp

theorem sortByDateDesc_length (l : List Photo) :
    (sortByDateDesc l).length = l.length := by
  induction l with
  | nil => rfl
  | cons p ps ih => simp [sortByDateDesc, insertByDateDesc_length, ih]

theorem insertByDateDesc_perm (p : Photo) (l : List Photo) :
    List.Perm (insertByDateDesc p l) (p :: l) := by
  induction l with
  | nil => exact List.Perm.refl _
  | cons q qs ih =>
    simp only [insertByDateDesc]
    split
    · exact List.Perm.trans (List.Perm.cons q ih) (List.Perm.swap p q qs)
    · exact List.Perm.refl _

theorem sortByDateDesc_perm (l : List Photo) :
    List.Perm (sortByDateDesc l) l := by
  induction l with
  | nil => exact List.Perm.refl _
  | cons p ps ih =>
    exact List.Perm.trans (insertByDateDesc_perm p (sortByDateDesc ps))
      (List.Perm.cons p ih)

theorem insertByDateDesc_sorted (p : Photo) (l : List Photo)
    (h : l.Pairwise (fun a b => b.date ≤ a.date)) :
    (insertByDateDesc p l).Pairwise (fun a b => b.date ≤ a.date) := by
  induction l with
  | nil => simp [insertByDateDesc]
  | cons q qs ih =>
    rw [List.pairwise_cons] at h
    by_cases hc : p.date < q.date
    · rw [insertByDateDesc, if_pos hc, List.pairwise_cons]
      refine ⟨?_, ih h.2⟩
      intro x hx
      have hmem : x ∈ p :: qs := (insertByDateDesc_perm p qs).mem_iff.mp hx
      rcases List.mem_cons.mp hmem with rfl | hxqs
      · omega
      · exact h.1 x hxqs
    · rw [insertByDateDesc, if_neg hc, List.pairwise_cons]
      refine ⟨?_, List.pairwise_cons.mpr h⟩
      intro x hx
      rcases List.mem_cons.mp hx with rfl | hxqs
      · omega
      · have := h.1 x hxqs
        omega

/-- `sortByDateDesc` really sorts: dates are non-increasing along the
result. -/
theorem sortByDateDesc_sorted (l : List Photo) :
    (sortByDateDesc l).Pairwise (fun a b => b.date ≤ a.date) := by
  induction l with
  | nil => simp [sortByDateDesc]
  | cons p ps ih => exact insertByDateDesc_sorted p (sortByDateDesc ps) ih

theorem filter_insertByDateDesc (d : Int) (p : Photo) (l : List Photo) :
    (insertByDateDesc p l).filter (fun q => q.date == d)
      = if p.date == d
        then p :: l.filter (fun q => q.date == d)
        else l.filter (fun q => q.date == d) := by
  induction l with
  | nil =>
    cases hp : (p.date == d) with
    | true => simp [insertByDateDesc, List.filter_cons, hp]
    | false => simp [insertByDateDesc, List.filter_cons, hp]
  | cons q qs ih =>
    by_cases hc : p.date < q.date
    · rw [insertByDateDesc, if_pos hc, List.filter_cons, List.filter_cons, ih]
      cases hq : (q.date == d) with
      | true =>
        cases hp : (p.date == d) with
        | true =>
          exfalso
          have h1 : p.date = d := by simpa using hp
          have h2 : q.date = d := by simpa using hq
          omega
        | false => simp [hp, hq]
      | false =>
        cases hp : (p.date == d) with
        | true => simp [hp, hq]
        | false => simp [hp, hq]
    · rw [insertByDateDesc, if_neg hc]
      cases hp : (p.date == d) with
      | true => simp [List.filter_cons, hp]
      | false => simp [List.filter_cons, hp]

/-- `sortByDateDesc` is stable: the records carrying any given date keep
exactly their original relative order (this pins down the ES2019 stable sort
together with `sortByDateDesc_perm` and `sortByDateDesc_sorted`). -/
theorem sortByDateDesc_stable (d : Int) (l : List Photo) :
    (sortByDateDesc l).filter (fun q => q.date == d)
      = l.filter (fun q => q.date == d) := by
  induction l with
  | nil => rfl
  | cons p ps ih =>
    rw [sortByDateDesc, filter_insertByDateDesc, ih, List.filter_cons]

/-- Concatenating consecutive `take L` chunks of a list recovers the list. -/
theorem join_take_drop_chunks {α : Type} (L : Nat) :
    ∀ (n : Nat) (l : List α), l.length ≤ n * L →
      ((List.range n).map (fun i => (l.drop (i * L)).take L)).flatten = l := by
  intro n
  induction n with
  | zero =>
    intro l h
    simp only [Nat.zero_mul, Nat.le_zero, List.length_eq_zero] at h
    simp [h]
  | succ n ih =>
    intro l h
    rw [List.range_succ_eq_map]
    simp only [List.map_cons, List.map_map, List.flatten_cons, Nat.zero_mul,
      List.drop_zero]
    have hcomp :
        ((fun i => (l.drop (i * L)).take L) ∘ Nat.succ)
          = fun i => (((l.drop L).drop (i * L)).take L) := by
      funext i
      have h1 : Nat.succ i * L = L + i * L := by
        rw [Nat.succ_mul, Nat.add_comm]
      simp only [Function.comp_apply, h1, List.drop_drop]
    rw [hcomp]
    have hlen : (l.drop L).length ≤ n * L := by
      have h' : l.length ≤ n * L + L := by
        rw [Nat.add_mul, Nat.one_mul] at h
        exact h
      rw [List.length_drop]
      omega
    rw [ih (l.drop L) hlen]
    exact List.take_append_drop L l

/-- **C1**: for every fixed stored photo set and page length `L`, concatenating
`loadPage(0,L), loadPage(L,L), loadPage(2L,L), …` (enough pages to cover the
collection) yields exactly the records of `loadPhotosFromDB` sorted by `date`
descending with a stable tiebreak, in that order — and the concatenation is a
permutation of the stored set, so no record is duplicated or omitted. -/
theorem c1_pagination_exact (db : List Photo) (L n : Nat)
    (h : db.length ≤ n * L) :
    ((List.range n).map (fun i => loadPhotosPaginated db (i * L) L)).flatten
        = sortByDateDesc (loadPhotosFromDB db) ∧
    List.Perm
      ((List.range n).map (fun i => loadPhotosPaginated db (i * L) L)).flatten
      db := by
  have hlen : (sortByDateDesc db).length ≤ n * L := by
    rw [sortByDateDesc_length]; exact h
  have hjoin :
      ((List.range n).map (fun i => loadPhotosPaginated db (i * L) L)).flatten
        = sortByDateDesc db :=
    join_take_drop_chunks L n (sortByDateDesc db) hlen
  refine ⟨hjoin, ?_⟩
  rw [hjoin]
  exact sortByDateDesc_perm db

/-- Witness for C1 on a concrete three-photo store with page length 2 and two
pages. -/
theorem c1_pagination_exact_witness :
    ([testPhoto 1 5, testPhoto 2 3, testPhoto 3 9].length ≤ 2 * 2) ∧
    (((List.range 2).map
        (fun i => loadPhotosPaginated
          [testPhoto 1 5, testPhoto 2 3, testPhoto 3 9] (i * 2) 2)).flatten
        = sortByDateDesc
            (loadPhotosFromDB [testPhoto 1 5, testPhoto 2 3, testPhoto 3 9]) ∧
      List.Perm
        ((List.range 2).map
          (fun i => loadPhotosPaginated
            [testPhoto 1 5, testPhoto 2 3, testPhoto 3 9] (i * 2) 2)).flatten
        [testPhoto 1 5, testPhoto 2 3, testPhoto 3 9]) :=
  ⟨by decide,
    c1_pagination_exact [testPhoto 1 5, testPhoto 2 3, testPhoto 3 9] 2 2
      (by decide)⟩

/-- A record of the `thumbnails` object store (`{ photoId: photo.id, data: thumbnail }`,
keyed by `photoId`). -/
structure ThumbRecord where
  photoId : Nat
  data : String
deriving DecidableEq

/-- Errors surfaced by the IndexedDB layer. `constraintError` is the rejection
of `IDBObjectStore.add` on an existing key; `txFailed` an aborted transaction. -/
inductive StoreError where
  | constraintError : StoreError
  | txFailed : StoreError
deriving DecidableEq

/-- The `PhotoGalleryDB` database: the `photos` store and the `thumbnails`
store, each kept in key-record order. -/
structure DBState where
  photos : List Photo
  thumbnails : List ThumbRecord
deriving DecidableEq

/-- Look up the photo stored under key `id` (`store.get(id)`). -/
def getPhotoRecord (s : DBState) (id : Nat) : Option Photo :=
  s.photos.find? (fun p => p.id == id)

/-- Look up the thumbnail stored under key `id`. -/
def getThumbnailRecord (s : DBState) (id : Nat) : Option ThumbRecord :=
  s.thumbnails.find? (fun t => t.photoId == id)

/-- `photoStore.add(photo)`: add-only insert, rejecting with a
`ConstraintError` when a record with the same key exists. -/
def addPhotoOp (p : Photo) (s : DBState) : Except StoreError DBState :=
  if s.photos.any (fun q => q.id == p.id) then .error .constraintError
  else .ok { s with photos := s.photos ++ [p] }

/-- `thumbStore.add({ photoId, data })`: add-only insert on the thumbnail
store. -/
def addThumbnailOp (t : ThumbRecord) (s : DBState) : Except StoreError DBState :=
  if s.thumbnails.any (fun q => q.photoId == t.photoId) then .error .constraintError
  else .ok { s with thumbnails := s.thumbnails ++ [t] }

/-- `savePhotoDB(photo, thumbnail?)`: one readwrite transaction over both
stores that `add`s the photo and, when given, its thumbnail.  An unhandled
request error aborts the transaction, rolling back every write, and the call
rejects; on `oncomplete` it resolves.  The result pairs the post-call database
state with the error, if any. -/
def savePhotoDB (s : DBState) (photo : Photo) (thumbnail : Option String) :
    DBState × Option StoreError :=
  let tx : Except StoreError DBState :=
    match addPhotoOp photo s with
    | .error e => .error e
    | .ok s1 =>
      match thumbnail with
      | none => .ok s1
      | some d => addThumbnailOp ⟨photo.id, d⟩ s1
  match tx with
  | .ok s' => (s', none)
  | .error e => (s, some e)

/-- `deletePhotoDB(id)`: one readwrite transaction deleting the photo and its
thumbnail.  `IDBObjectStore.delete` succeeds whether or not the key is present,
so the call always resolves. -/
def deletePhotoDB (s : DBState) (id : Nat) : DBState :=
  { photos := s.photos.filter (fun p => p.id != id),
    thumbnails := s.thumbnails.filter (fun t => t.photoId != id) }

theorem find?_append_of_none {α : Type} (p : α → Bool) (l₁ l₂ : List α)
    (h : l₁.find? p = none) : (l₁ ++ l₂).find? p = l₂.find? p := by
  induction l₁ with
  | nil => rfl
  | cons a l ih =>
    rw [List.find?_cons] at h
    cases hpa : p a with
    | true => rw [hpa] at h; exact absurd h (by simp)
    | false =>
      rw [hpa] at h
      rw [List.cons_append, List.find?_cons, hpa]
      exact ih h

/-- **C2**: `savePhotoDB(photo, thumbnail?)` writes the photo and thumbnail as
one atomic unit: a duplicate photo id makes the call fail (add-only, not
upsert); on success both records are retrievable; on failure the database is
exactly the pre-call state — no partial write. -/
theorem c2_save_atomic (s : DBState) (photo : Photo) (thumbnail : Option String) :
    ((∃ q ∈ s.photos, q.id = photo.id) →
      (savePhotoDB s photo thumbnail).2.isSome = true) ∧
    ((savePhotoDB s photo thumbnail).2 = none →
      getPhotoRecord (savePhotoDB s photo thumbnail).1 photo.id = some photo ∧
      ∀ d, thumbnail = some d →
        getThumbnailRecord (savePhotoDB s photo thumbnail).1 photo.id
          = some ⟨photo.id, d⟩) ∧
    (∀ e, (savePhotoDB s photo thumbnail).2 = some e →
      (savePhotoDB s photo thumbnail).1 = s) := by
  by_cases hdup : s.photos.any (fun q => q.id == photo.id) = true
  · have hsave : savePhotoDB s photo thumbnail = (s, some .constraintError) := by
      simp [savePhotoDB, addPhotoOp, hdup]
    refine ⟨fun _ => by rw [hsave]; rfl, fun hnone => ?_, fun e _ => by rw [hsave]⟩
    rw [hsave] at hnone
    exact absurd hnone (by simp)
  · have hfind : s.photos.find? (fun q => q.id == photo.id) = none :=
      List.find?_eq_none.mpr (List.any_eq_false.mp (Bool.eq_false_iff.mpr hdup))
    cases thumbnail with
    | none =>
      have hsave : savePhotoDB s photo none
          = ({ s with photos := s.photos ++ [photo] }, none) := by
        simp [savePhotoDB, addPhotoOp, hdup]
      refine ⟨?_, fun _ => ⟨?_, ?_⟩, fun e he => ?_⟩
      · rintro ⟨q, hq, hqid⟩
        exact absurd (List.any_eq_true.mpr ⟨q, hq, by simp [hqid]⟩) hdup
      · rw [hsave]
        show (s.photos ++ [photo]).find? (fun p => p.id == photo.id) = some photo
        rw [find?_append_of_none _ _ _ hfind]
        simp [List.find?_cons]
      · intro d hd; exact absurd hd (by simp)
      · rw [hsave] at he; exact absurd he (by simp)
    | some d =>
      by_cases hdupT : s.thumbnails.any (fun q => q.photoId == photo.id) = true
      · have hsave : savePhotoDB s photo (some d) = (s, some .constraintError) := by
          simp [savePhotoDB, addPhotoOp, addThumbnailOp, hdup, hdupT]
        refine ⟨fun _ => by rw [hsave]; rfl, fun hnone => ?_, fun e _ => by rw [hsave]⟩
        rw [hsave] at hnone
        exact absurd hnone (by simp)
      · have hfindT : s.thumbnails.find? (fun q => q.photoId == photo.id) = none :=
          List.find?_eq_none.mpr (List.any_eq_false.mp (Bool.eq_false_iff.mpr hdupT))
        have hsave : savePhotoDB s photo (some d)
            = ({ photos := s.photos ++ [photo],
                 thumbnails := s.thumbnails ++ [⟨photo.id, d⟩] }, none) := by
          simp [savePhotoDB, addPhotoOp, addThumbnailOp, hdup, hdupT]
      --
        refine ⟨?_, fun _ => ⟨?_, ?_⟩, fun e he => ?_⟩
        · rintro ⟨q, hq, hqid⟩
          exact absurd (List.any_eq_true.mpr ⟨q, hq, by simp [hqid]⟩) hdup
        · rw [hsave]
          show (s.photos ++ [photo]).find? (fun p => p.id == photo.id) = some photo
          rw [find?_append_of_none _ _ _ hfind]
          simp [List.find?_cons]
        · intro d' hd'
          cases hd'
          rw [hsave]
          show (s.thumbnails ++ [ThumbRecord.mk photo.id d]).find?
              (fun t => t.photoId == photo.id) = some (ThumbRecord.mk photo.id d)
          rw [find?_append_of_none _ _ _ hfindT]
          simp [List.find?_cons]
        · rw [hsave] at he; exact absurd he (by simp)

/-- Witness for C2: on a store already holding photo id 1, saving another photo
with id 1 fails. -/
theorem c2_save_atomic_witness :
    (savePhotoDB ⟨[testPhoto 1 0], []⟩ (testPhoto 1 5) none).2.isSome = true :=
  (c2_save_atomic ⟨[testPhoto 1 0], []⟩ (testPhoto 1 5) none).1
    ⟨testPhoto 1 0, by decide, by decide⟩

/-- **C3**: `deletePhotoDB(id)` removes the photo and its thumbnail atomically;
deleting an absent id is a no-op success, and deleting twice never errors on
the second call and leaves the store identical to deleting once. -/
theorem c3_delete_idempotent (s : DBState) (id : Nat) :
    getPhotoRecord (deletePhotoDB s id) id = none ∧
    getThumbnailRecord (deletePhotoDB s id) id = none ∧
    deletePhotoDB (deletePhotoDB s id) id = deletePhotoDB s id ∧
    (getPhotoRecord s id = none → getThumbnailRecord s id = none →
      deletePhotoDB s id = s) := by
  refine ⟨?_, ?_, ?_, ?_⟩
  · simp only [getPhotoRecord, deletePhotoDB]
    refine List.find?_eq_none.mpr ?_
    intro p hp
    have hf := List.of_mem_filter hp
    simpa using hf
  · simp only [getThumbnailRecord, deletePhotoDB]
    refine List.find?_eq_none.mpr ?_
    intro t ht
    have hf := List.of_mem_filter ht
    simpa using hf
  · simp only [deletePhotoDB]
    congr 1
    · refine List.filter_eq_self.mpr ?_
      intro p hp
      rw [List.mem_filter] at hp
      exact hp.2
    · refine List.filter_eq_self.mpr ?_
      intro t ht
      rw [List.mem_filter] at ht
      exact ht.2
  · intro hp ht
    simp only [getPhotoRecord] at hp
    simp only [getThumbnailRecord] at ht
    rw [List.find?_eq_none] at hp ht
    simp only [deletePhotoDB]
    have e1 : s.photos.filter (fun p => p.id != id) = s.photos :=
      List.filter_eq_self.mpr (fun p hmem => by
        have hne := hp p hmem
        simpa using hne)
    have e2 : s.thumbnails.filter (fun t => t.photoId != id) = s.thumbnails :=
      List.filter_eq_self.mpr (fun t hmem => by
        have hne := ht t hmem
        simpa using hne)
    rw [e1, e2]

/-- Witness for C3 on a one-photo store and an absent id. -/
theorem c3_delete_idempotent_witness :
    deletePhotoDB ⟨[testPhoto 1 0], [⟨1, "t"⟩]⟩ 2 = ⟨[testPhoto 1 0], [⟨1, "t"⟩]⟩ :=
  (c3_delete_idempotent ⟨[testPhoto 1 0], [⟨1, "t"⟩]⟩ 2).2.2.2 (by decide) (by decide)

/-- The `AlbumPhoto` association triple of `useAlbumPhotos.tsx`, persisted as
one JSON blob under the `album_photos` localStorage key. -/
structure AlbumPhoto where
  albumId : String
  photoId : Nat
  addedAt : Int
deriving DecidableEq

/-- `addPhotosToAlbum(albumId, photoIds)`: drop every stored association whose
`albumId` matches, then append one fresh association per element of `photoIds`,
all stamped with the same current time `now`. -/
def addPhotosToAlbum (store : List AlbumPhoto) (albumId : String)
    (photoIds : List Nat) (now : Int) : List AlbumPhoto :=
  let filtered := store.filter (fun ap => ap.albumId != albumId)
  let newPhotos := photoIds.map (fun pid => AlbumPhoto.mk albumId pid now)
  filtered ++ newPhotos

/-- `getAlbumPhotos(albumId)`: the photo ids of the associations stored for
`albumId`, in storage order. -/
def getAlbumPhotos (store : List AlbumPhoto) (albumId : String) : List Nat :=
  (store.filter (fun ap => ap.albumId == albumId)).map (fun ap => ap.photoId)

theorem getAlbumPhotos_addPhotosToAlbum (store : List AlbumPhoto)
    (albumId : String) (photoIds : List Nat) (now : Int) :
    getAlbumPhotos (addPhotosToAlbum store albumId photoIds now) albumId
      = photoIds := by
  simp only [getAlbumPhotos, addPhotosToAlbum, List.filter_append]
  have h1 : (store.filter (fun ap => ap.albumId != albumId)).filter
      (fun ap => ap.albumId == albumId) = [] := by
    rw [List.filter_eq_nil_iff]
    intro ap hap
    rw [List.mem_filter] at hap
    simp only [bne_iff_ne, ne_eq] at hap
    simp [hap.2]
  have h2 : (photoIds.map (fun pid => AlbumPhoto.mk albumId pid now)).filter
      (fun ap => ap.albumId == albumId)
      = photoIds.map (fun pid => AlbumPhoto.mk albumId pid now) := by
    rw [List.filter_eq_self]
    intro ap hap
    rw [List.mem_map] at hap
    obtain ⟨pid, _, rfl⟩ := hap
    simp
  rw [h1, h2, List.nil_append, List.map_map]
  simp [Function.comp_def]

/-- **C4 counterexample**: the claim "after `addPhotosToAlbum(A, [1,2,2,3])`
the stored associations for `A` contain each distinct photoId exactly once"
fails on the code: duplicates in the input list are persisted verbatim, so
photo id 2 occurs twice. -/
theorem c4_uniqueness_counterexample :
    getAlbumPhotos (addPhotosToAlbum [] "A" [1, 2, 2, 3] 0) "A" = [1, 2, 2, 3] ∧
    ¬ ((getAlbumPhotos (addPhotosToAlbum [] "A" [1, 2, 2, 3] 0) "A").count 2 = 1) := by
  constructor
  · decide
  · decide

/-- **C4 (amended)**: after `addPhotosToAlbum(A, list)` the stored
associations for `A` are exactly one per element of `list`, in order and with
multiplicity — `getAlbumPhotos(A)` returns `list` itself — so each distinct
photoId occurs exactly once precisely when the input list has no duplicates. -/
theorem c4_association_multiplicity (store : List AlbumPhoto) (albumId : String)
    (photoIds : List Nat) (now : Int) :
    getAlbumPhotos (addPhotosToAlbum store albumId photoIds now) albumId
      = photoIds ∧
    (photoIds.Nodup → ∀ pid ∈ photoIds,
      (getAlbumPhotos (addPhotosToAlbum store albumId photoIds now) albumId).count pid
        = 1) := by
  refine ⟨getAlbumPhotos_addPhotosToAlbum store albumId photoIds now, ?_⟩
  intro hnd pid hpid
  rw [getAlbumPhotos_addPhotosToAlbum store albumId photoIds now]
  exact List.count_eq_one_of_mem hnd hpid

/-- Witness for C4 (amended) on a duplicate-free input list. -/
theorem c4_association_multiplicity_witness :
    getAlbumPhotos (addPhotosToAlbum [] "A" [1, 2, 3] 0) "A" = [1, 2, 3] ∧
    (getAlbumPhotos (addPhotosToAlbum [] "A" [1, 2, 3] 0) "A").count 2 = 1 :=
  ⟨(c4_association_multiplicity [] "A" [1, 2, 3] 0).1,
    (c4_association_multiplicity [] "A" [1, 2, 3] 0).2 (by decide) 2 (by decide)⟩

/-- **C5**: `addPhotosToAlbum(albumId, photoIds)` is a set-replace with a frame
condition: afterwards the associations stored for `albumId` are exactly those
derived from `photoIds`, all stamped with the same timestamp `now`, and every
association whose `albumId` differs is unchanged. -/
theorem c5_set_replace_frame (store : List AlbumPhoto) (albumId : String)
    (photoIds : List Nat) (now : Int) :
    (addPhotosToAlbum store albumId photoIds now).filter
        (fun ap => ap.albumId == albumId)
      = photoIds.map (fun pid => AlbumPhoto.mk albumId pid now) ∧
    (addPhotosToAlbum store albumId photoIds now).filter
        (fun ap => ap.albumId != albumId)
      = store.filter (fun ap => ap.albumId != albumId) := by
  constructor
  · simp only [addPhotosToAlbum, List.filter_append]
    have h1 : (store.filter (fun ap => ap.albumId != albumId)).filter
        (fun ap => ap.albumId == albumId) = [] := by
      rw [List.filter_eq_nil_iff]
      intro ap hap
      rw [List.mem_filter] at hap
      simp only [bne_iff_ne, ne_eq] at hap
      simp [hap.2]
    have h2 : (photoIds.map (fun pid => AlbumPhoto.mk albumId pid now)).filter
        (fun ap => ap.albumId == albumId)
        = photoIds.map (fun pid => AlbumPhoto.mk albumId pid now) := by
      rw [List.filter_eq_self]
      intro ap hap
      rw [List.mem_map] at hap
      obtain ⟨pid, _, rfl⟩ := hap
      simp
    rw [h1, h2, List.nil_append]
  · simp only [addPhotosToAlbum, List.filter_append]
    have h1 : (store.filter (fun ap => ap.albumId != albumId)).filter
        (fun ap => ap.albumId != albumId)
        = store.filter (fun ap => ap.albumId != albumId) := by
      rw [List.filter_eq_self]
      intro ap hap
      rw [List.mem_filter] at hap
      exact hap.2
    have h2 : (photoIds.map (fun pid => AlbumPhoto.mk albumId pid now)).filter
        (fun ap => ap.albumId != albumId) = [] := by
      rw [List.filter_eq_nil_iff]
      intro ap hap
      rw [List.mem_map] at hap
      obtain ⟨pid, _, rfl⟩ := hap
      simp
    rw [h1, h2, List.append_nil]

/-- `getPhotoCount()` (healthy-store path): `store.count()`. -/
def getPhotoCount (db : List Photo) : Nat := db.length

/-- The reactive state of the `usePhotos` hook that the loader touches:
`uploadedPhotos`, `totalCount` (a JavaScript number, so modelled as `Int` —
the facade decrements it without a floor), `currentPage`, the `isLoading` /
`loadingRef` guard and `hasMore`. -/
structure PhotosState where
  uploadedPhotos : List Photo
  totalCount : Int
  currentPage : Nat
  isLoading : Bool
  hasMore : Bool
deriving DecidableEq

/-- The init effect of `usePhotos`: read the count, load the first page, reset
the cursor and derive `hasMore` as `PAGE_SIZE < count`. -/
def initPhotosState (db : List Photo) : PhotosState :=
  { uploadedPhotos := loadPhotosPaginated db 0 PAGE_SIZE
    totalCount := (getPhotoCount db : Int)
    currentPage := 0
    isLoading := false
    hasMore := decide ((PAGE_SIZE : Int) < (getPhotoCount db : Int)) }

/-- `loadMore()`: no-op when a load is in flight or `hasMore` is false;
otherwise fetch the page at `offset = (currentPage+1)*PAGE_SIZE`.  A non-empty
result is appended, the page advances and `hasMore` is recomputed as
`offset + PAGE_SIZE < totalCount`; an empty result only forces
`hasMore = false`.  The `finally` block clears the loading guard. -/
def loadMore (db : List Photo) (s : PhotosState) : PhotosState :=
  if s.isLoading || !s.hasMore then s
  else
    let offset := (s.currentPage + 1) * PAGE_SIZE
    let newPhotos := loadPhotosPaginated db offset PAGE_SIZE
    if 0 < newPhotos.length then
      { uploadedPhotos := s.uploadedPhotos ++ newPhotos
        totalCount := s.totalCount
        currentPage := s.currentPage + 1
        isLoading := false
        hasMore := decide ((offset + PAGE_SIZE : Int) < s.totalCount) }
    else
      { s with hasMore := false, isLoading := false }

theorem loadPhotosPaginated_length (db : List Photo) (offset limit : Nat) :
    (loadPhotosPaginated db offset limit).length
      = min limit (db.length - offset) := by
  simp [loadPhotosPaginated, List.length_take, List.length_drop,
    sortByDateDesc_length]

/-- **C6**: `loadMore()` is a no-op when a load is in flight or `hasMore` is
false; otherwise it fetches the page at `(currentPage+1)*PAGE_SIZE`, and on a
non-empty result appends it, advances `currentPage` and recomputes `hasMore`
from the count, while an empty result forces `hasMore = false` regardless of
the count-based formula.  In particular, from the initial state over a store
of 120 photos with page size 50, two `loadMore()` calls end with
`currentPage = 2`, 120 accumulated records and `hasMore = false`. -/
theorem c6_loadMore_spec (db : List Photo) (s : PhotosState) :
    (s.isLoading = true ∨ s.hasMore = false → loadMore db s = s) ∧
    (s.isLoading = false → s.hasMore = true →
      (0 < (loadPhotosPaginated db ((s.currentPage + 1) * PAGE_SIZE) PAGE_SIZE).length →
        loadMore db s =
          { uploadedPhotos := s.uploadedPhotos
              ++ loadPhotosPaginated db ((s.currentPage + 1) * PAGE_SIZE) PAGE_SIZE
            totalCount := s.totalCount
            currentPage := s.currentPage + 1
            isLoading := false
            hasMore := decide
              ((((s.currentPage + 1) * PAGE_SIZE : Nat) : Int) + (PAGE_SIZE : Int)
                < s.totalCount) }) ∧
      ((loadPhotosPaginated db ((s.currentPage + 1) * PAGE_SIZE) PAGE_SIZE).length = 0 →
        loadMore db s = { s with hasMore := false, isLoading := false })) ∧
    (db.length = 120 →
      (loadMore db (loadMore db (initPhotosState db))).currentPage = 2 ∧
      (loadMore db (loadMore db (initPhotosState db))).uploadedPhotos.length = 120 ∧
      (loadMore db (loadMore db (initPhotosState db))).hasMore = false) := by
  refine ⟨?_, ?_, ?_⟩
  · intro h
    rcases h with h | h
    · simp [loadMore, h]
    · simp [loadMore, h]
  · intro hl hm
    constructor
    · intro hpos
      simp only [loadMore, hl, hm, Bool.not_true, Bool.or_false]
      rw [if_neg (by simp)]
      rw [if_pos hpos]
    · intro hzero
      simp only [loadMore, hl, hm, Bool.not_true, Bool.or_false]
      rw [if_neg (by simp)]
      rw [if_neg (by omega)]
  · intro h120
    have hp0 : (loadPhotosPaginated db 0 PAGE_SIZE).length = 50 := by
      rw [loadPhotosPaginated_length, h120]; rfl
    have hp1 : (loadPhotosPaginated db 50 PAGE_SIZE).length = 50 := by
      rw [loadPhotosPaginated_length, h120]; rfl
    have hp2 : (loadPhotosPaginated db 100 PAGE_SIZE).length = 20 := by
      rw [loadPhotosPaginated_length, h120]; rfl
    have hcount : getPhotoCount db = 120 := h120
    have hinit : initPhotosState db =
        { uploadedPhotos := loadPhotosPaginated db 0 PAGE_SIZE
          totalCount := 120
          currentPage := 0
          isLoading := false
          hasMore := true } := by
      rw [initPhotosState, hcount]
      rfl
    have hstep1 : loadMore db (initPhotosState db) =
        { uploadedPhotos := loadPhotosPaginated db 0 PAGE_SIZE
            ++ loadPhotosPaginated db 50 PAGE_SIZE
          totalCount := 120
          currentPage := 1
          isLoading := false
          hasMore := true } := by
      rw [hinit]
      simp only [loadMore, Bool.or_false, Bool.not_true]
      rw [if_neg (by simp)]
      have : (1 : Nat) * PAGE_SIZE = 50 := rfl
      rw [if_pos (by rw [this, hp1]; omega)]
      rw [this]
      rfl
    have hstep2 : loadMore db (loadMore db (initPhotosState db)) =
        { uploadedPhotos := (loadPhotosPaginated db 0 PAGE_SIZE
            ++ loadPhotosPaginated db 50 PAGE_SIZE)
            ++ loadPhotosPaginated db 100 PAGE_SIZE
          totalCount := 120
          currentPage := 2
          isLoading := false
          hasMore := false } := by
      rw [hstep1]
      simp only [loadMore, Bool.or_false, Bool.not_true]
      rw [if_neg (by simp)]
      have h2 : (1 + 1 : Nat) * PAGE_SIZE = 100 := rfl
      rw [if_pos (by rw [h2, hp2]; omega)]
      rw [h2]
      rfl
    rw [hstep2]
    refine ⟨rfl, ?_, rfl⟩
    simp [List.length_append, hp0, hp1, hp2]

/-- A concrete 120-photo store for instantiating the pagination scenario. -/
def db120 : List Photo := (List.range 120).map (fun i => testPhoto i (i : Int))

/-- Witness for C6: the no-op guard on an in-flight state and Scenario B on the
concrete 120-photo store. -/
theorem c6_loadMore_spec_witness :
    loadMore db120 ⟨[], 120, 0, true, true⟩ = ⟨[], 120, 0, true, true⟩ ∧
    (db120.length = 120 ∧
      ((loadMore db120 (loadMore db120 (initPhotosState db120))).currentPage = 2 ∧
        (loadMore db120 (loadMore db120 (initPhotosState db120))).uploadedPhotos.length
          = 120 ∧
        (loadMore db120 (loadMore db120 (initPhotosState db120))).hasMore = false)) :=
  ⟨(c6_loadMore_spec db120 ⟨[], 120, 0, true, true⟩).1 (Or.inl rfl),
    by simp [db120],
    (c6_loadMore_spec db120 ⟨[], 120, 0, true, true⟩).2.2 (by simp [db120])⟩

/-- Health of the storage engine for one call: whether `initDB()` resolves and
whether the read transaction succeeds. -/
structure StorageEnv where
  openOk : Bool
  txOk : Bool
deriving DecidableEq

/-- `getPhotoCount()` with failure modelling.  The body is
`try { ... return new Promise(...) } catch (error) { return 0; }` inside an
async function: only the awaited `initDB()` can throw into the `try`, because
`return promise` (without `await`) adopts the promise after the `try` block is
left.  So an open failure is caught and resolves with `0`, while a transaction
or request error rejects to the caller. -/
def getPhotoCountRun (env : StorageEnv) (db : List Photo) :
    Except StoreError Nat :=
  if !env.openOk then .ok 0
  else if !env.txOk then .error .txFailed
  else .ok (getPhotoCount db)

/-- `loadPhotosPaginated(offset, limit)` with failure modelling, under the same
`try`/`catch` shape: an open failure is caught and resolves with `[]`, while a
transaction or request error rejects to the caller. -/
def loadPhotosPaginatedRun (env : StorageEnv) (db : List Photo)
    (offset limit : Nat) : Except StoreError (List Photo) :=
  if !env.openOk then .ok []
  else if !env.txOk then .error .txFailed
  else .ok (loadPhotosPaginated db offset limit)

/-- **C9 counterexample**: when the database open fails, `getPhotoCount`
resolves successfully with the substitute value `0` (and `loadPhotosPaginated`
with `[]`) on a store whose true count is 1 — contradicting the claim that in
no case a failed `count()` or `loadPage()` resolves with a substitute value. -/
theorem c9_open_failure_counterexample :
    getPhotoCountRun ⟨false, true⟩ [testPhoto 1 0] = .ok 0 ∧
    loadPhotosPaginatedRun ⟨false, true⟩ [testPhoto 1 0] 0 50 = .ok [] ∧
    getPhotoCount [testPhoto 1 0] = 1 :=
  ⟨rfl, rfl, rfl⟩

/-- **C9 (amended)**: transaction (and request) failures during `count()` and
`loadPage()` reject to the immediate caller with no substitute value, but a
database open failure is swallowed by the `catch` block: `count()` then
resolves with `0` and `loadPage()` with `[]`.  On a healthy store both resolve
with the true results. -/
theorem c9_storage_error_amended (env : StorageEnv) (db : List Photo)
    (offset limit : Nat) :
    (env.openOk = true → env.txOk = false →
      getPhotoCountRun env db = .error .txFailed ∧
      loadPhotosPaginatedRun env db offset limit = .error .txFailed) ∧
    (env.openOk = false →
      getPhotoCountRun env db = .ok 0 ∧
      loadPhotosPaginatedRun env db offset limit = .ok []) ∧
    (env.openOk = true → env.txOk = true →
      getPhotoCountRun env db = .ok (getPhotoCount db) ∧
      loadPhotosPaginatedRun env db offset limit
        = .ok (loadPhotosPaginated db offset limit)) := by
  refine ⟨?_, ?_, ?_⟩ <;>
    intro h1 <;>
    first
      | (intro h2; constructor <;> simp [getPhotoCountRun, loadPhotosPaginatedRun, h1, h2])
      | (constructor <;> simp [getPhotoCountRun, loadPhotosPaginatedRun, h1])

/-- Witness for C9 (amended): a transaction failure rejects both reads. -/
theorem c9_storage_error_amended_witness :
    getPhotoCountRun ⟨true, false⟩ [] = .error .txFailed ∧
    loadPhotosPaginatedRun ⟨true, false⟩ [] 0 50 = .error .txFailed :=
  (c9_storage_error_amended ⟨true, false⟩ [] 0 50).1 rfl rfl

/-- The facade `deletePhoto(id)` (success path): await `deletePhotoDB(id)`,
filter the deleted id out of the in-memory list, then
`setTotalCount(prev => prev - 1)` unconditionally. -/
def deletePhoto (db : DBState) (s : PhotosState) (id : Nat) :
    DBState × PhotosState :=
  (deletePhotoDB db id,
    { s with
        uploadedPhotos := s.uploadedPhotos.filter (fun p => p.id != id)
        totalCount := s.totalCount - 1 })

/-- **C10**: whenever the facade `deletePhoto(id)` resolves it decrements the
in-memory `totalCount` by exactly 1 unconditionally; in particular when no
photo with that id exists the store is untouched, so a previously accurate
`totalCount` no longer equals the store's record count afterwards. -/
theorem c10_delete_count_drift (db : DBState) (s : PhotosState) (id : Nat) :
    (deletePhoto db s id).2.totalCount = s.totalCount - 1 ∧
    (getPhotoRecord db id = none →
      (deletePhoto db s id).1.photos = db.photos ∧
      (s.totalCount = (db.photos.length : Int) →
        (deletePhoto db s id).2.totalCount
          ≠ (((deletePhoto db s id).1.photos.length : Nat) : Int))) := by
  refine ⟨rfl, ?_⟩
  intro hnone
  simp only [getPhotoRecord] at hnone
  rw [List.find?_eq_none] at hnone
  have e1 : (deletePhoto db s id).1.photos = db.photos := by
    show db.photos.filter (fun p => p.id != id) = db.photos
    refine List.filter_eq_self.mpr ?_
    intro p hp
    have hne := hnone p hp
    simpa using hne
  refine ⟨e1, ?_⟩
  intro hc
  rw [e1, ← hc]
  show s.totalCount - 1 ≠ s.totalCount
  omega

/-- Witness for C10: deleting the absent id 2 from a one-photo store leaves the
store at count 1 while the facade count drops to 0. -/
theorem c10_delete_count_drift_witness :
    (deletePhoto ⟨[testPhoto 1 0], []⟩ ⟨[testPhoto 1 0], 1, 0, false, false⟩ 2).1.photos
        = [testPhoto 1 0] ∧
    (deletePhoto ⟨[testPhoto 1 0], []⟩ ⟨[testPhoto 1 0], 1, 0, false, false⟩ 2).2.totalCount
        ≠ (((deletePhoto ⟨[testPhoto 1 0], []⟩
              ⟨[testPhoto 1 0], 1, 0, false, false⟩ 2).1.photos.length : Nat) : Int) :=
  ⟨((c10_delete_count_drift ⟨[testPhoto 1 0], []⟩
      ⟨[testPhoto 1 0], 1, 0, false, false⟩ 2).2 (by decide)).1,
    ((c10_delete_count_drift ⟨[testPhoto 1 0], []⟩
      ⟨[testPhoto 1 0], 1, 0, false, false⟩ 2).2 (by decide)).2 (by decide)⟩

/-- An input file as the upload pipeline observes it: name, byte size, whether
the platform image decoder accepts it, and its decoded pixel dimensions. -/
structure UploadFile where
  name : String
  size : Nat
  decodeOk : Bool
  width : Nat
  height : Nat
deriving DecidableEq

/-- The stages of `uploadPhoto`, in execution order: the synchronous size
guard, `FileReader.readAsDataURL`, the `Image` decode, `generateThumbnail`,
and `savePhotoDB`. -/
inductive UploadEvent where
  | sizeCheck
  | readFile
  | decodeImage
  | makeThumbnail
  | storeWrite
deriving DecidableEq

/-- Rejection reasons of the upload pipeline.  `fileTooLarge` carries the
file's actual byte size and the limit in MiB, mirroring the message
`File size (...MB) exceeds maximum of 500MB` built from both. -/
inductive UploadError where
  | fileTooLarge (sizeBytes : Nat) (limitMB : Nat)
  | decodeFailed
  | storeFailed (e : StoreError)
deriving DecidableEq

/-- One MiB — the divisor in `const fileSizeMB = file.size / (1024 * 1024)`. -/
def MB : Nat := 1024 * 1024

/-- The limit of the guard `if (fileSizeMB > 500)`. -/
def MAX_FILE_MB : Nat := 500

/-- `canvas.toDataURL('image/jpeg', 0.7)` of the generated thumbnail, as an
opaque string derived from the file. -/
def thumbnailData (f : UploadFile) : String := "thumb:" ++ f.name

/-- The `newPhoto` record `uploadPhoto` builds once the image has decoded:
upload-time id and date, the data-URI payload as `src`, the file name as
`alt`, the decoded dimensions, and the thumbnail inline. -/
def mkUploadedPhoto (f : UploadFile) (id : Nat) (now : Int) : Photo :=
  { id := id
    date := now
    src := "data:" ++ f.name
    alt := f.name
    width := f.width
    height := f.height
    isUploaded := true
    fileSize := f.size
    thumbnail := some (thumbnailData f)
    backendId := none }

/-- `uploadPhoto(file)`.  The guard `file.size / (1024*1024) > 500` runs
before the `FileReader` is even constructed; division by the power of two
`2^20` is exact in IEEE-754 doubles, so the guard is exactly
`size > MAX_FILE_MB * MB`.  Past it, the payload is read, the image decoded,
the thumbnail derived, and `savePhotoDB(newPhoto, thumbnail)` awaited.  The
result pairs the trace of stages actually reached with the outcome. -/
def uploadPhoto (f : UploadFile) (id : Nat) (now : Int) (s : DBState) :
    List UploadEvent × Except UploadError (Photo × DBState) :=
  if MAX_FILE_MB * MB < f.size then
    ([.sizeCheck], .error (.fileTooLarge f.size MAX_FILE_MB))
  else if !f.decodeOk then
    ([.sizeCheck, .readFile, .decodeImage], .error .decodeFailed)
  else
    let photo := mkUploadedPhoto f id now
    match savePhotoDB s photo (some (thumbnailData f)) with
    | (s', none) =>
      ([.sizeCheck, .readFile, .decodeImage, .makeThumbnail, .storeWrite],
        .ok (photo, s'))
    | (_, some e) =>
      ([.sizeCheck, .readFile, .decodeImage, .makeThumbnail, .storeWrite],
        .error (.storeFailed e))

/-- **C7**: a file larger than 500 MiB is rejected by the size guard before
the payload is read or decoded, with an error carrying the file's actual size
and the 500 MiB limit; a file at or below the limit never produces the
size-limit rejection. -/
theorem c7_size_guard (f : UploadFile) (id : Nat) (now : Int) (s : DBState) :
    MAX_FILE_MB = 500 ∧ MB = 1024 * 1024 ∧
    (MAX_FILE_MB * MB < f.size →
      uploadPhoto f id now s
        = ([.sizeCheck], .error (.fileTooLarge f.size MAX_FILE_MB)) ∧
      UploadEvent.readFile ∉ (uploadPhoto f id now s).1 ∧
      UploadEvent.decodeImage ∉ (uploadPhoto f id now s).1) ∧
    (f.size ≤ MAX_FILE_MB * MB →
      ∀ a b, (uploadPhoto f id now s).2 ≠ .error (.fileTooLarge a b)) := by
  refine ⟨rfl, rfl, ?_, ?_⟩
  · intro h
    have he : uploadPhoto f id now s
        = ([.sizeCheck], .error (.fileTooLarge f.size MAX_FILE_MB)) := by
      simp [uploadPhoto, h]
    refine ⟨he, ?_, ?_⟩
    · rw [he]
      show UploadEvent.readFile ∉ [UploadEvent.sizeCheck]
      decide
    · rw [he]
      show UploadEvent.decodeImage ∉ [UploadEvent.sizeCheck]
      decide
  · intro h a b
    have hno : ¬ (MAX_FILE_MB * MB < f.size) := by omega
    simp only [uploadPhoto, if_neg hno]
    cases hd : f.decodeOk with
    | false => simp [hd]
    | true =>
      simp only [hd, Bool.not_true, Bool.false_eq_true, if_false]
      rcases hsave : savePhotoDB s (mkUploadedPhoto f id now)
          (some (thumbnailData f)) with ⟨s', oe⟩
      cases oe with
      | none => simp
      | some e => simp

/-- Witness for C7: a 600 MiB file is rejected with its size and the limit,
and a 1-byte file never hits the size rejection. -/
theorem c7_size_guard_witness :
    (MAX_FILE_MB * MB < 600 * MB ∧
      uploadPhoto ⟨"big", 600 * MB, true, 10, 10⟩ 1 0 ⟨[], []⟩
        = ([.sizeCheck], .error (.fileTooLarge (600 * MB) MAX_FILE_MB))) ∧
    (∀ a b, (uploadPhoto ⟨"ok", 1, true, 10, 10⟩ 1 0 ⟨[], []⟩).2
        ≠ .error (.fileTooLarge a b)) :=
  ⟨⟨by decide,
    ((c7_size_guard ⟨"big", 600 * MB, true, 10, 10⟩ 1 0 ⟨[], []⟩).2.2.1
      (by decide)).1⟩,
    (c7_size_guard ⟨"ok", 1, true, 10, 10⟩ 1 0 ⟨[], []⟩).2.2.2 (by decide)⟩

/-- `uploadMultiplePhotos(files)`: a `for` loop awaiting `uploadPhoto` per
file and pushing each result; an error from one file is rethrown, abandoning
the remaining files.  Ids are drawn sequentially from `nextId` (each
`Date.now() + Math.random()` yields a fresh increasing key).  The result pairs
the database state as the loop leaves it with the outcome. -/
def uploadMultiplePhotos (files : List UploadFile) (nextId : Nat) (now : Int)
    (s : DBState) : DBState × Except UploadError (List Photo) :=
  match files with
  | [] => (s, .ok [])
  | f :: fs =>
    match uploadPhoto f nextId now s with
    | (_, .error e) => (s, .error e)
    | (_, .ok (p, s')) =>
      match uploadMultiplePhotos fs (nextId + 1) now s' with
      | (s'', .error e) => (s'', .error e)
      | (s'', .ok ps) => (s'', .ok (p :: ps))

/-- The per-file validation of the pipeline: within the size limit and
decodable.  Under fresh ids these are exactly the files whose upload
succeeds. -/
def uploadOk (f : UploadFile) : Bool :=
  decide (f.size ≤ MAX_FILE_MB * MB) && f.decodeOk

/-- The rejection `uploadPhoto` produces for a file failing validation. -/
def uploadFailError (f : UploadFile) : UploadError :=
  if MAX_FILE_MB * MB < f.size then .fileTooLarge f.size MAX_FILE_MB
  else .decodeFailed

/-- The photo and thumbnail records a sequential upload run stores, one per
file, ids counting up from `nextId`. -/
def uploadedRecords (files : List UploadFile) (nextId : Nat) (now : Int) :
    List Photo × List ThumbRecord :=
  match files with
  | [] => ([], [])
  | f :: fs =>
    let rest := uploadedRecords fs (nextId + 1) now
    (mkUploadedPhoto f nextId now :: rest.1,
      ThumbRecord.mk nextId (thumbnailData f) :: rest.2)

theorem savePhotoDB_fresh (s : DBState) (photo : Photo) (d : String)
    (hp : ∀ p ∈ s.photos, p.id ≠ photo.id)
    (ht : ∀ t ∈ s.thumbnails, t.photoId ≠ photo.id) :
    savePhotoDB s photo (some d)
      = (⟨s.photos ++ [photo], s.thumbnails ++ [ThumbRecord.mk photo.id d]⟩,
          none) := by
  have h1 : s.photos.any (fun q => q.id == photo.id) = false :=
    List.any_eq_false.mpr (fun q hq => by simpa using hp q hq)
  have h2 : s.thumbnails.any (fun q => q.photoId == photo.id) = false :=
    List.any_eq_false.mpr (fun q hq => by simpa using ht q hq)
  simp [savePhotoDB, addPhotoOp, addThumbnailOp, h1, h2]

theorem uploadPhoto_ok (f : UploadFile) (id : Nat) (now : Int) (s : DBState)
    (hok : uploadOk f = true)
    (hp : ∀ p ∈ s.photos, p.id ≠ id)
    (ht : ∀ t ∈ s.thumbnails, t.photoId ≠ id) :
    uploadPhoto f id now s
      = ([.sizeCheck, .readFile, .decodeImage, .makeThumbnail, .storeWrite],
          .ok (mkUploadedPhoto f id now,
            ⟨s.photos ++ [mkUploadedPhoto f id now],
              s.thumbnails ++ [ThumbRecord.mk id (thumbnailData f)]⟩)) := by
  have hok' := hok
  simp only [uploadOk, Bool.and_eq_true, decide_eq_true_eq] at hok'
  obtain ⟨hsize, hdec⟩ := hok'
  have hno : ¬ (MAX_FILE_MB * MB < f.size) := by omega
  have hid : (mkUploadedPhoto f id now).id = id := rfl
  have hsave := savePhotoDB_fresh s (mkUploadedPhoto f id now) (thumbnailData f)
    (by intro p hmem; rw [hid]; exact hp p hmem)
    (by intro t hmem; rw [hid]; exact ht t hmem)
  rw [hid] at hsave
  simp only [uploadPhoto, if_neg hno, hdec, Bool.not_true, Bool.false_eq_true,
    if_false]
  rw [hsave]

theorem uploadPhoto_fail (f : UploadFile) (id : Nat) (now : Int) (s : DBState)
    (hbad : uploadOk f = false) :
    ∃ tr, uploadPhoto f id now s = (tr, .error (uploadFailError f)) := by
  by_cases hs : MAX_FILE_MB * MB < f.size
  · exact ⟨[.sizeCheck], by simp [uploadPhoto, uploadFailError, hs]⟩
  · have hle : f.size ≤ MAX_FILE_MB * MB := Nat.not_lt.mp hs
    have hdec : f.decodeOk = false := by
      simp only [uploadOk, Bool.and_eq_false_iff, decide_eq_false_iff_not,
        Nat.not_le] at hbad
      rcases hbad with h | h
      · exact absurd h (by omega)
      · exact h
    exact ⟨[.sizeCheck, .readFile, .decodeImage],
      by simp [uploadPhoto, uploadFailError, hs, hdec]⟩

/-- **C8**: `uploadMultiplePhotos` processes its files strictly sequentially
with ids drawn in order; writing stops at the first failing file: the database
afterwards holds exactly the records of the files preceding the first failure
(all of them when every file passes), the failure propagates up as the
failing file's own error, and when every file passes the call succeeds with
one stored photo per file. -/
theorem c8_sequential_abort (files : List UploadFile) (nextId : Nat)
    (now : Int) (s : DBState)
    (hp : ∀ p ∈ s.photos, p.id < nextId)
    (ht : ∀ t ∈ s.thumbnails, t.photoId < nextId) :
    (uploadMultiplePhotos files nextId now s).1.photos
        = s.photos
          ++ (uploadedRecords
                (files.take (files.findIdx (fun g => !uploadOk g)))
                nextId now).1 ∧
    (uploadMultiplePhotos files nextId now s).1.thumbnails
        = s.thumbnails
          ++ (uploadedRecords
                (files.take (files.findIdx (fun g => !uploadOk g)))
                nextId now).2 ∧
    ((∀ f ∈ files, uploadOk f = true) →
      (uploadMultiplePhotos files nextId now s).2
        = .ok (uploadedRecords files nextId now).1) ∧
    (∀ g, files[files.findIdx (fun g => !uploadOk g)]? = some g →
      (uploadMultiplePhotos files nextId now s).2
        = .error (uploadFailError g)) := by
  induction files generalizing nextId s with
  | nil =>
    refine ⟨by simp [uploadMultiplePhotos, uploadedRecords], ?_, ?_, ?_⟩
    · simp [uploadMultiplePhotos, uploadedRecords]
    · intro _; simp [uploadMultiplePhotos, uploadedRecords]
    · intro g hg; simp at hg
  | cons f fs ih =>
    by_cases hok : uploadOk f = true
    · have hfidx : (f :: fs).findIdx (fun g => !uploadOk g)
          = fs.findIdx (fun g => !uploadOk g) + 1 := by
        rw [List.findIdx_cons]
        simp [hok]
      have hup := uploadPhoto_ok f nextId now s hok
        (fun p hmem => by have := hp p hmem; omega)
        (fun t hmem => by have := ht t hmem; omega)
      have hp' : ∀ p ∈ (DBState.mk (s.photos ++ [mkUploadedPhoto f nextId now])
          (s.thumbnails ++ [ThumbRecord.mk nextId (thumbnailData f)])).photos,
          p.id < nextId + 1 := by
        intro p hmem
        rcases List.mem_append.mp hmem with h | h
        · have := hp p h; omega
        · rcases List.mem_singleton.mp h with rfl
          show nextId < nextId + 1
          omega
      have ht' : ∀ t ∈ (DBState.mk (s.photos ++ [mkUploadedPhoto f nextId now])
          (s.thumbnails ++ [ThumbRecord.mk nextId (thumbnailData f)])).thumbnails,
          t.photoId < nextId + 1 := by
        intro t hmem
        rcases List.mem_append.mp hmem with h | h
        · have := ht t h; omega
        · rcases List.mem_singleton.mp h with rfl
          show nextId < nextId + 1
          omega
      obtain ⟨ih1, ih2, ih3, ih4⟩ := ih (nextId + 1)
        (DBState.mk (s.photos ++ [mkUploadedPhoto f nextId now])
          (s.thumbnails ++ [ThumbRecord.mk nextId (thumbnailData f)])) hp' ht'
      have hm0 : uploadMultiplePhotos (f :: fs) nextId now s
          = match uploadMultiplePhotos fs (nextId + 1) now
              (DBState.mk (s.photos ++ [mkUploadedPhoto f nextId now])
                (s.thumbnails ++ [ThumbRecord.mk nextId (thumbnailData f)])) with
            | (s2, .error e) => (s2, .error e)
            | (s2, .ok ps) => (s2, .ok (mkUploadedPhoto f nextId now :: ps)) := by
        conv_lhs => rw [uploadMultiplePhotos, hup]
      rcases hrec : uploadMultiplePhotos fs (nextId + 1) now
          (DBState.mk (s.photos ++ [mkUploadedPhoto f nextId now])
            (s.thumbnails ++ [ThumbRecord.mk nextId (thumbnailData f)]))
        with ⟨s2, r⟩
      rw [hrec] at ih1 ih2 ih3 ih4 hm0
      cases r with
      | error e =>
        have hm : uploadMultiplePhotos (f :: fs) nextId now s
            = (s2, .error e) := hm0
        rw [hm]
        refine ⟨?_, ?_, ?_, ?_⟩
        · rw [hfidx]
          simp only [List.take_succ_cons, uploadedRecords]
          rw [ih1]
          simp [List.append_assoc]
        · rw [hfidx]
          simp only [List.take_succ_cons, uploadedRecords]
          rw [ih2]
          simp [List.append_assoc]
        · intro hall
          have hres := ih3 (fun g hg => hall g (List.mem_cons_of_mem f hg))
          exact absurd hres (by simp)
        · intro g hg
          rw [hfidx] at hg
          rw [List.getElem?_cons_succ] at hg
          have hres := ih4 g hg
          simp only at hres
          simp only [hres]
      | ok ps =>
        have hm : uploadMultiplePhotos (f :: fs) nextId now s
            = (s2, .ok (mkUploadedPhoto f nextId now :: ps)) := hm0
        rw [hm]
        refine ⟨?_, ?_, ?_, ?_⟩
        · rw [hfidx]
          simp only [List.take_succ_cons, uploadedRecords]
          rw [ih1]
          simp [List.append_assoc]
        · rw [hfidx]
          simp only [List.take_succ_cons, uploadedRecords]
          rw [ih2]
          simp [List.append_assoc]
        · intro hall
          have hres := ih3 (fun g hg => hall g (List.mem_cons_of_mem f hg))
          simp only at hres
          simp only [uploadedRecords]
          rw [show ps = (uploadedRecords fs (nextId + 1) now).1 from by
            injection hres]
        · intro g hg
          rw [hfidx] at hg
          rw [List.getElem?_cons_succ] at hg
          have hres := ih4 g hg
          exact absurd hres (by simp)
    · have hok' : uploadOk f = false := Bool.eq_false_iff.mpr hok
      have hfidx : (f :: fs).findIdx (fun g => !uploadOk g) = 0 := by
        rw [List.findIdx_cons]
        simp [hok']
      obtain ⟨tr, htr⟩ := uploadPhoto_fail f nextId now s hok'
      have hm : uploadMultiplePhotos (f :: fs) nextId now s
          = (s, .error (uploadFailError f)) := by
        rw [uploadMultiplePhotos, htr]
      rw [hm, hfidx]
      refine ⟨by simp [uploadedRecords], by simp [uploadedRecords], ?_, ?_⟩
      · intro hall
        exact absurd (hall f (List.mem_cons_self f fs)) (by simp [hok'])
      · intro g hg
        rw [List.getElem?_cons_zero] at hg
        have : g = f := by injection hg with h; exact h.symm
        rw [this]

/-- Witness for C8: a batch whose second file fails decoding stores exactly
the first file's records and rethrows the second file's error. -/
theorem c8_sequential_abort_witness :
    (uploadMultiplePhotos
        [⟨"a", 1, true, 1, 1⟩, ⟨"b", 1, false, 1, 1⟩, ⟨"c", 1, true, 1, 1⟩]
        10 0 ⟨[], []⟩).1.photos
      = [mkUploadedPhoto ⟨"a", 1, true, 1, 1⟩ 10 0] ∧
    (uploadMultiplePhotos
        [⟨"a", 1, true, 1, 1⟩, ⟨"b", 1, false, 1, 1⟩, ⟨"c", 1, true, 1, 1⟩]
        10 0 ⟨[], []⟩).2
      = .error (uploadFailError ⟨"b", 1, false, 1, 1⟩) :=
  ⟨(c8_sequential_abort
      [⟨"a", 1, true, 1, 1⟩, ⟨"b", 1, false, 1, 1⟩, ⟨"c", 1, true, 1, 1⟩]
      10 0 ⟨[], []⟩ (by simp) (by simp)).1,
    (c8_sequential_abort
      [⟨"a", 1, true, 1, 1⟩, ⟨"b", 1, false, 1, 1⟩, ⟨"c", 1, true, 1, 1⟩]
      10 0 ⟨[], []⟩ (by simp) (by simp)).2.2.2
      ⟨"b", 1, false, 1, 1⟩ (by decide)⟩

end PhotoGallery
